import Mathlib

/-!
Shallow embedding of the `hyperad` library (files `src/hyperad/contents.py`
and `src/hyperad/app.py`) in Lean 4, together with theorems settling the
specification claims about it.

Python dictionaries are modelled as insertion-ordered association lists with
unique keys; Python exceptions are modelled with `Except`; the mutation done
by `MultiContent.add` is modelled by explicit state passing that also returns
the state reached when an exception is raised mid-way.
-/

set_option autoImplicit false

namespace Hyperad

/-- A Python object in a position where `contents.py` checks for `str` or
`bytes`: either a text string, a bytes object, or some other object
identified by the name of its type. -/
inductive PyObj
  | str (s : String)
  | bytes (b : List Nat)
  | other (tag : String)
deriving DecidableEq, Repr

/-- `isinstance(x, (str, bytes))`. -/
def PyObj.isStrOrBytes : PyObj → Bool
  | .str _ => true
  | .bytes _ => true
  | .other _ => false

/-- The Python exceptions raised by the library.  `duplicateValue` is
modelled from the spec: `hyperad/errors.py` is not in the sources; the spec
describes `DuplicateKey` as the error for two File/JSONValue members of a
Composite sharing a name, and `contents.py` imports it as `DuplicateValue`. -/
inductive PyErr
  | typeError (msg : String)
  | valueError (msg : String)
  | duplicateValue (msg : String)
deriving DecidableEq, Repr

/-- Modelled from the spec: `hyperad/constants.py` is not in the sources.
The spec names these content-type and header strings explicitly. -/
def CONTENT_TYPE : String := "Content-Type"

def CONTENT_DISPOSITION : String := "Content-Disposition"

def APPLICATION_JSON : String := "application/json"

def MULTIPART_FORM_DATA : String := "multipart/form-data"

def TEXT_PLAIN : String := "text/plain"

def APPLICATION_X_WWW_FORM_URLENCODED : String := "application/x-www-form-urlencoded"

def APPLICATION_OCTET_STREAM : String := "application/octet-stream"

mutual

/-- A JSON-ish Python value passed to `JSONContent`.  `num` covers the
integers used by the claims; `nan` and `infinity` stand for the non-finite
floats that `json.dumps(..., allow_nan=False)` rejects with `ValueError`;
`unserializable` stands for any object (e.g. a `set`) that `json.dumps`
rejects with `TypeError`, tagged with its type name. -/
inductive JVal
  | null
  | boolean (b : Bool)
  | num (n : Int)
  | nan
  | infinity (neg : Bool)
  | str (s : String)
  | arr (xs : JList)
  | obj (fields : JFields)
  | unserializable (tag : String)
deriving DecidableEq, Repr

/-- The elements of a JSON array (a Python list). -/
inductive JList
  | nil
  | cons (x : JVal) (xs : JList)
deriving DecidableEq, Repr

/-- The key-value pairs of a JSON object (a Python dict with string keys),
in insertion order. -/
inductive JFields
  | nil
  | cons (k : String) (v : JVal) (rest : JFields)
deriving DecidableEq, Repr

end

/-- JSON string escaping as CPython `json.dumps` does for the quote and
backslash characters (control-character and non-ASCII escaping is outside
the model; no claim exercises it). -/
def escapeJChar (c : Char) : String :=
  if c = '"' then "\\\""
  else if c = '\\' then "\\\\"
  else String.singleton c

def quoteJ (s : String) : String :=
  "\"" ++ String.join (s.toList.map escapeJChar) ++ "\""

def joinComma : List String → String
  | [] => ""
  | [x] => x
  | x :: xs => x ++ ", " ++ joinComma xs

mutual

/-- Modelled from CPython `json.dumps` (an external stdlib collaborator of
`contents.py`) with its default separators: `", "` between items and `": "`
after keys.  With `allowNan = false` a non-finite float raises `ValueError`;
an unserializable object always raises `TypeError`. -/
def dumpJ (allowNan : Bool) : JVal → Except PyErr String
  | .null => .ok "null"
  | .boolean true => .ok "true"
  | .boolean false => .ok "false"
  | .num n => .ok (toString n)
  | .nan =>
      if allowNan then .ok "NaN"
      else .error (.valueError "Out of range float values are not JSON compliant")
  | .infinity neg =>
      if allowNan then .ok (if neg then "-Infinity" else "Infinity")
      else .error (.valueError "Out of range float values are not JSON compliant")
  | .str s => .ok (quoteJ s)
  | .arr xs => do
      let parts ← dumpJList allowNan xs
      .ok ("[" ++ joinComma parts ++ "]")
  | .obj fs => do
      let parts ← dumpJFields allowNan fs
      .ok ("\x7b" ++ joinComma parts ++ "\x7d")
  | .unserializable tag =>
      .error (.typeError ("Object of type " ++ tag ++ " is not JSON serializable"))

/-- Serialization of the elements of a JSON array, left to right,
propagating the first error. -/
def dumpJList (allowNan : Bool) : JList → Except PyErr (List String)
  | .nil => .ok []
  | .cons x xs => do
      let s ← dumpJ allowNan x
      let rest ← dumpJList allowNan xs
      .ok (s :: rest)

/-- Serialization of the key-value pairs of a JSON object, left to right,
propagating the first error. -/
def dumpJFields (allowNan : Bool) : JFields → Except PyErr (List String)
  | .nil => .ok []
  | .cons k v xs => do
      let s ← dumpJ allowNan v
      let rest ← dumpJFields allowNan xs
      .ok ((quoteJ k ++ ": " ++ s) :: rest)

end

instance instDecEqExcept {ε α : Type} [DecidableEq ε] [DecidableEq α] :
    DecidableEq (Except ε α) := fun a b =>
  match a, b with
  | .ok x, .ok y => decidable_of_iff (x = y) (by simp)
  | .error x, .error y => decidable_of_iff (x = y) (by simp)
  | .ok _, .error _ => isFalse (fun h => Except.noConfusion h)
  | .error _, .ok _ => isFalse (fun h => Except.noConfusion h)

/-- `json.dumps(v, allow_nan=allowNan)`. -/
def jsondumps (allowNan : Bool) (v : JVal) : Except PyErr String :=
  dumpJ allowNan v

/-- The `file` argument of `FileContent.__init__`: a `str`, a `bytes`, an
`io` stream object (with an optional `name` attribute and a flag telling
whether it is an `io.TextIOBase`), some other iterable object (with an
optional `name` attribute), or a non-file-like object tagged with its type
name. -/
inductive FileArg
  | str (s : String)
  | bytes (b : List Nat)
  | stream (nm : Option String) (isText : Bool)
  | iterable (nm : Option String)
  | other (tag : String)
deriving DecidableEq, Repr

/-- The `is_file` check of `FileContent.__init__`: `isinstance(file, (str,
bytes))` or `isinstance(file, io.IOBase)` or `hasattr(file, "__iter__")`. -/
def FileArg.isFileLike : FileArg → Bool
  | .other _ => false
  | _ => true

/-- The `name` attribute of the file object, when it has one (`str` and
`bytes` objects have none). -/
def FileArg.nameAttr : FileArg → Option String
  | .stream nm _ => nm
  | .iterable nm => nm
  | _ => none

/-- `isinstance(file, (io.TextIOBase, str))`. -/
def FileArg.isTextLike : FileArg → Bool
  | .str _ => true
  | .stream _ t => t
  | _ => false

/-- Splits a character list at every occurrence of `c`; like Python
`s.split(c)`, always returns at least one (possibly empty) piece. -/
def splitOnChar (c : Char) : List Char → List (List Char)
  | [] => [[]]
  | x :: xs =>
    let r := splitOnChar c xs
    if x = c then [] :: r
    else
      match r with
      | [] => [[x]]
      | y :: ys => (x :: y) :: ys

/-- `os.path.split(p)[1]` (POSIX): everything after the last slash. -/
def pathTail (p : String) : String :=
  ⟨(splitOnChar '/' p.data).getLastD p.data⟩

/-- The extension of the final path component, as `os.path.splitext` finds
it: the part after the last dot, except that a leading-dot-only name (such
as `".txt"`) has no extension. -/
def extOf (filename : String) : Option String :=
  match splitOnChar '.' (pathTail filename).data with
  | [] => none
  | [_] => none
  | [[], _] => none
  | parts => some ⟨parts.getLastD []⟩

/-- Modelled fragment of CPython `mimetypes.guess_type` (an external stdlib
collaborator of `contents.py`), restricted to the lowercase extensions this
development exercises; every other extension is unresolvable (`None`). -/
def guess_type (filename : String) : Option String :=
  match extOf filename with
  | some "txt" => some TEXT_PLAIN
  | some "json" => some APPLICATION_JSON
  | some "html" => some "text/html"
  | _ => none

/-- The state of a constructed content object: `ParamContent`,
`FieldContent`, `FileContent` (with its resolved `_filename` and guessed
`_enctype`) or `JSONContent`. -/
inductive ContentObj
  | param (nm value : PyObj)
  | field (nm value : PyObj)
  | file (nm : PyObj) (file : FileArg) (filename : String) (enctype : String)
  | json (nm : PyObj) (json : JVal)
deriving DecidableEq, Repr

/-- `Content.name()`. -/
def ContentObj.cname : ContentObj → PyObj
  | .param nm _ => nm
  | .field nm _ => nm
  | .file nm _ _ _ => nm
  | .json nm _ => nm

/-- `Content.__init__`: `name` must be a `str` or `bytes` object. -/
def Content.checkName (nm : PyObj) : Except PyErr Unit :=
  if nm.isStrOrBytes then .ok ()
  else .error (.typeError "name is expected as a str or bytes object")

/-- `ParamContent.__init__`. -/
def ParamContent.init (nm value : PyObj) : Except PyErr ContentObj := do
  Content.checkName nm
  if value.isStrOrBytes then .ok (.param nm value)
  else .error (.typeError "value is expected as a byte-like object")

/-- `FieldContent.__init__`. -/
def FieldContent.init (nm value : PyObj) : Except PyErr ContentObj := do
  Content.checkName nm
  if value.isStrOrBytes then .ok (.field nm value)
  else .error (.typeError "value is expected as a byte-like object")

/-- The filename-resolution step of `FileContent.__init__`: the explicit
`filename` argument when one was passed, else the file object's own `name`
attribute (when it has one), else nothing. -/
def resolvedFilename (file : FileArg) (filename : Option String) : Option String :=
  match filename with
  | none => file.nameAttr
  | some f => some f

/-- `FileContent.__init__`: checks the file argument is file-like, resolves
the filename (explicit argument first, then the file object's own `name`
attribute), raises `ValueError` when none is found, strips the directory
part with `os.path.split`, and guesses the content type from the filename,
defaulting to `text/plain` for text-like files and
`application/octet-stream` otherwise. -/
def FileContent.init (nm : PyObj) (file : FileArg) (filename : Option String) :
    Except PyErr ContentObj := do
  Content.checkName nm
  if !file.isFileLike then
    .error (.typeError
      "file is expected as a file-like object or byte-like or iterable or str object")
  else
    match resolvedFilename file filename with
    | none =>
        .error (.valueError
          "Please provide filename explicitly if file does not have name attribute")
    | some fn =>
        let enc := match guess_type fn with
          | some t => t
          | none => if file.isTextLike then TEXT_PLAIN else APPLICATION_OCTET_STREAM
        .ok (.file nm file (pathTail fn) enc)

/-- `JSONContent.__init__`: tries `json.dumps(json, allow_nan=False)`; a
`ValueError` from it is caught and replaced by the constructor's own
`ValueError`; any other exception (in particular the `TypeError` raised for
unserializable objects) propagates unchanged. -/
def JSONContent.init (nm : PyObj) (json : JVal) : Except PyErr ContentObj := do
  Content.checkName nm
  match jsondumps false json with
  | .error (.valueError _) =>
      .error (.valueError "json is expected a serializable json object")
  | .error e => .error e
  | .ok _ => .ok (.json nm json)

/-! ## Python dictionaries as insertion-ordered association lists

A Python `dict` never holds two entries with the same key, so first-match
lookup below agrees with it; insertion appends at the end, assignment to an
existing key keeps its position. -/

/-- `k in d.keys()`. -/
def dcontains {α β : Type} [DecidableEq α] : List (α × β) → α → Bool
  | [], _ => false
  | (k', _) :: rest, k => if k' = k then true else dcontains rest k

/-- `d[k]` / `d.get(k)`: the value stored under `k` (a Python dict holds at
most one). -/
def dget {α β : Type} [DecidableEq α] : List (α × β) → α → Option β
  | [], _ => none
  | (k', v) :: rest, k => if k' = k then some v else dget rest k

/-- `d[k] = v`: overwrite the entry holding `k` in place, append a new entry
otherwise. -/
def dset {α β : Type} [DecidableEq α] : List (α × β) → α → β → List (α × β)
  | [], k, v => [(k, v)]
  | (k', v') :: rest, k, v =>
      if k' = k then (k', v) :: rest else (k', v') :: dset rest k v

/-- `d.update(other)`: assign every entry of `other` into `d`, in order. -/
def dupdate {α β : Type} [DecidableEq α] (d other : List (α × β)) : List (α × β) :=
  other.foldl (fun acc p => dset acc p.1 p.2) d

/-- `d.pop(k, None)`: the removed value (if any) and the remaining dict. -/
def dpop {α β : Type} [DecidableEq α] (d : List (α × β)) (k : α) :
    Option β × List (α × β) :=
  (dget d k, d.filter (fun p => decide (p.1 ≠ k)))

/-- Mutation of the value object stored under `k` (as
`parameters["headers"].update(...)` does): applies `f` to it in place. -/
def dmodify {α β : Type} [DecidableEq α] : List (α × β) → α → (β → β) → List (α × β)
  | [], _, _ => []
  | (k', v) :: rest, k, f =>
      if k' = k then (k', f v) :: rest else (k', v) :: dmodify rest k f

/-- The payload stored in a `files` entry of a Composite bundle: the raw
file object of a `FileContent`, or the serialized JSON string of a
`JSONContent`. -/
inductive FilePart
  | fileArg (f : FileArg)
  | jsonStr (s : String)
deriving DecidableEq, Repr

/-- A `(filename, payload, content-type)` triple stored under a name in the
`files` mapping. -/
abbrev FileTriple := Option String × FilePart × String

/-- A value stored in the request-parameter dictionary handed to
`requests.request`: a string-to-string dict (`headers`), a one-entry
name-to-value dict (a single Param/Field build), a name-to-value-list dict
(Composite `params`/`data`), a files dict, a JSON value, a raw file object,
or an otherwise-uninterpreted transport option supplied by the caller
(timeout, proxies, auth, ...). -/
inductive RVal
  | sdict (d : List (String × String))
  | vdict (d : List (PyObj × PyObj))
  | ldict (d : List (PyObj × List PyObj))
  | fdict (d : List (PyObj × FileTriple))
  | jval (j : JVal)
  | fileArg (f : FileArg)
  | transport (tag : String)
deriving DecidableEq, Repr

/-- The `_REQUEST_PARAMS` dict a `build()` call returns and `crequest`
forwards. -/
abbrev Bundle := List (String × RVal)

/-- `Content._build` of the four simple content variants, exactly as each
class writes its dict literal. -/
def ContentObj.build : ContentObj → Bundle
  | .param nm v => [("params", .vdict [(nm, v)])]
  | .field nm v => [("data", .vdict [(nm, v)])]
  | .file _ f filename enctype =>
      [("data", .fileArg f),
       ("headers", .sdict
         [(CONTENT_TYPE, enctype),
          (CONTENT_DISPOSITION, "attachment; filename=" ++ filename)])]
  | .json _ j => [("json", .jval j)]

/-- `Content.enctype()` of the four simple content variants.  `ParamContent`
returns Python `None`, modelled as `none`. -/
def ContentObj.enctype : ContentObj → Option String
  | .param _ _ => none
  | .field _ _ => some APPLICATION_X_WWW_FORM_URLENCODED
  | .file _ _ _ enc => some enc
  | .json _ _ => some APPLICATION_JSON

/-- An object passed to `MultiContent.add`: either an exact instance of one
of the four accepted content classes, or anything else (including instances
of subclasses, which `_exact_is_instance` rejects), tagged with its type
name. -/
inductive AnyObj
  | content (c : ContentObj)
  | other (tag : String)
deriving DecidableEq, Repr

/-- `isinstance(content, (FieldContent, ParamContent))`. -/
def ContentObj.isParamOrField : ContentObj → Bool
  | .param _ _ => true
  | .field _ _ => true
  | _ => false

/-- A member that lands in the `files` mapping of a Composite build. -/
def ContentObj.isFilePart : ContentObj → Bool
  | .file _ _ _ _ => true
  | .json _ _ => true
  | _ => false

/-- The state of a `MultiContent`: its name, its member list in insertion
order, and its current `_enctype`. -/
structure MultiContent where
  nm : PyObj
  contentList : List ContentObj
  enctype : String
deriving DecidableEq, Repr

/-- `MultiContent.__init__`. -/
def MultiContent.init (nm : PyObj) : Except PyErr MultiContent := do
  Content.checkName nm
  .ok ⟨nm, [], APPLICATION_X_WWW_FORM_URLENCODED⟩

/-- One loop iteration of `MultiContent.add` on an accepted member: flip
`_enctype` to multipart unless the member is a Param/Field, then append. -/
def MultiContent.appendContent (m : MultiContent) (c : ContentObj) : MultiContent :=
  { m with
    enctype := if c.isParamOrField then m.enctype else MULTIPART_FORM_DATA
    contentList := m.contentList ++ [c] }

/-- `MultiContent.add(*contents)` with the mutation made explicit: members
are processed left to right; an unsupported member raises `TypeError` at
the point of detection, leaving the members already processed appended.
Returns the state reached and the exception, if one was raised. -/
def MultiContent.addRun (m : MultiContent) : List AnyObj → MultiContent × Option PyErr
  | [] => (m, none)
  | .other tag :: _ =>
      (m, some (.typeError ("Unsupported Content (" ++ tag ++ ")")))
  | .content c :: rest => (m.appendContent c).addRun rest

/-- `MultiContent.add` viewed as an `Except` computation (the caller sees
the exception; the mutated state is only observable via `addRun`). -/
def MultiContent.add (m : MultiContent) (cs : List AnyObj) : Except PyErr MultiContent :=
  match m.addRun cs with
  | (m', none) => .ok m'
  | (_, some e) => .error e

/-- `_extract(d)`: a one-element dict yields its key-value pair, anything
else raises `ValueError`. -/
def _extract (d : List (PyObj × PyObj)) : Except PyErr (PyObj × PyObj) :=
  match d with
  | [(k, v)] => .ok (k, v)
  | _ =>
      .error (.valueError ("Only one-element dict can be extracted, " ++
        toString d.length ++ " element(s) found."))

/-- `PyObj` as `"{}".format(k)` renders it inside an error message (only the
`str` case is exercised; `bytes` rendering is approximated). -/
def PyObj.fmt : PyObj → String
  | .str s => s
  | .bytes _ => "bytes"
  | .other tag => tag

/-- `_create_or_append(d, k, v)`: `d[k].append(v)` on the entry holding `k`,
or creation of a one-element list `d.update({k: [v]})` when `k` is absent. -/
def _create_or_append : List (PyObj × List PyObj) → PyObj → PyObj →
    List (PyObj × List PyObj)
  | [], k, v => [(k, [v])]
  | (k', vs) :: rest, k, v =>
      if k' = k then (k', vs ++ [v]) :: rest
      else (k', vs) :: _create_or_append rest k v

/-- `_create_or_raise(d, k, v)`: insert `v` at `k`, raising `DuplicateValue`
when the key already exists. -/
def _create_or_raise {β : Type} (d : List (PyObj × β)) (k : PyObj) (v : β) :
    Except PyErr (List (PyObj × β)) :=
  if dcontains d k then
    .error (.duplicateValue ("Duplicated key (" ++ k.fmt ++ ")"))
  else .ok (d ++ [(k, v)])

/-- The three mappings `MultiContent._build` accumulates. -/
structure BuildAcc where
  params : List (PyObj × List PyObj)
  data : List (PyObj × List PyObj)
  files : List (PyObj × FileTriple)
deriving DecidableEq, Repr

/-- One loop iteration of `MultiContent._build`.  For a Param/Field member,
`_extract(content.build()["params" / "data"])` is written with the dict
lookup already performed: `content.build()` is the one-key literal of
`ContentObj.build`, so the argument is exactly `[(nm, value)]`.  Likewise
`content.build()["data"]` of a file member is its stored file object and
`content.build()["json"]` of a JSON member is its stored value. -/
def buildStep (acc : BuildAcc) (c : ContentObj) : Except PyErr BuildAcc :=
  match c with
  | .param nm value => do
      let (n, v) ← _extract [(nm, value)]
      .ok { acc with params := _create_or_append acc.params n v }
  | .field nm value => do
      let (n, v) ← _extract [(nm, value)]
      .ok { acc with data := _create_or_append acc.data n v }
  | .file nm f filename enctype => do
      let files ← _create_or_raise acc.files nm (some filename, .fileArg f, enctype)
      .ok { acc with files := files }
  | .json nm j => do
      let s ← jsondumps true j
      let files ← _create_or_raise acc.files nm
        ((none : Option String), FilePart.jsonStr s, APPLICATION_JSON)
      .ok { acc with files := files }

/-- The member loop of `MultiContent._build`, in insertion order. -/
def buildFold (acc : BuildAcc) : List ContentObj → Except PyErr BuildAcc
  | [] => .ok acc
  | c :: rest => do
      let acc' ← buildStep acc c
      buildFold acc' rest

/-- `MultiContent._build`: start from empty `params`/`data`/`files`
mappings, fold the members, and return the three mappings. -/
def MultiContent.build (m : MultiContent) : Except PyErr Bundle := do
  let acc ← buildFold ⟨[], [], []⟩ m.contentList
  .ok [("params", .ldict acc.params), ("data", .ldict acc.data),
       ("files", .fdict acc.files)]

/-- A content object handed to `App.crequest`: one of the four simple
contents, or a `MultiContent`. -/
inductive ContentVal
  | single (c : ContentObj)
  | multi (m : MultiContent)
deriving DecidableEq, Repr

/-- `content.build()` dispatched over the content variants. -/
def ContentVal.build : ContentVal → Except PyErr Bundle
  | .single c => .ok c.build
  | .multi m => m.build

/-- Python truthiness of a value found under `"headers"` in the overrides:
an empty dict is falsy; values of other shapes are assumed truthy. -/
def RVal.truthy : RVal → Bool
  | .sdict d => !d.isEmpty
  | _ => true

/-- `parameters["headers"].update(headers)` on the stored value: merges when
both sides are string dicts (the only shape the library and its callers
produce there); other shapes are left unchanged. -/
def RVal.updateHeaders : RVal → RVal → RVal
  | .sdict a, .sdict b => .sdict (dupdate a b)
  | a, _ => a

/-- The call `self.request(method, url, **parameters)` forwarded to the
external `requests.Session` engine. -/
structure RequestCall where
  method : String
  url : String
  parameters : Bundle
deriving DecidableEq, Repr

/-- The headers-merging step of `crequest`: `if headers and ("headers" in
parameters.keys()): parameters["headers"].update(headers)`. -/
def App.mergeHeaders : Bundle → Option RVal → Bundle
  | parameters, some h =>
      if h.truthy && dcontains parameters "headers" then
        dmodify parameters "headers" (fun old => old.updateHeaders h)
      else parameters
  | parameters, none => parameters

/-- `App.crequest(method, url, content, **kwargs)`: rejects the reserved
override keys, builds the content, pops a `headers` override and merges it
into the built headers when both exist, lays the remaining overrides on top
of the built parameters, and forwards to `Session.request`.  A returned
`RequestCall` is the network call; an error means no call was made. -/
def App.crequest (method url : String) (content : ContentVal) (kwargs : Bundle) :
    Except PyErr RequestCall :=
  if ["data", "json", "files", "params"].any (fun n => dcontains kwargs n) then
    .error (.valueError
      ("Do not use these parameters (data, json, files, params). " ++
       "They have already been included in Content object."))
  else do
    let parameters ← content.build
    let (headers, kwargs') := dpop kwargs "headers"
    let parameters := App.mergeHeaders parameters headers
    let parameters := dupdate parameters kwargs'
    .ok ⟨method, url, parameters⟩

/-! ## Auxiliary definitions used by the theorems -/

/-- First-of-two-lookups: the value of `a` when present, of `b` otherwise
(the lookup semantics of a Python dict after `update`). -/
def ofirst {β : Type} : Option β → Option β → Option β
  | some v, _ => some v
  | none, b => b

/-- The composite reached from `m` by a sequence of `add` calls (each call
keeps whatever state it reached, also when it raised). -/
def runAdds (m : MultiContent) : List (List AnyObj) → MultiContent
  | [] => m
  | call :: rest => runAdds (m.addRun call).1 rest

/-- The invariant tying `_enctype` to the member list. -/
def enctypeConsistent (m : MultiContent) : Prop :=
  m.enctype =
    if m.contentList.all ContentObj.isParamOrField then
      APPLICATION_X_WWW_FORM_URLENCODED
    else MULTIPART_FORM_DATA

/-- Whether an `Except` result is a raised `ValueError`. -/
def isValueError {α : Type} : Except PyErr α → Bool
  | .error (.valueError _) => true
  | _ => false

/-- A member whose stored JSON value serializes (true for every member a
`JSONContent` constructor has accepted, and trivially for the other
variants). -/
def ContentObj.serializes : ContentObj → Bool
  | .json _ j =>
      match jsondumps true j with
      | .ok _ => true
      | .error _ => false
  | _ => true

/-- The values of the Param members named `k`, in insertion order. -/
def paramValues (k : PyObj) : List ContentObj → List PyObj
  | [] => []
  | .param n v :: rest =>
      if n = k then v :: paramValues k rest else paramValues k rest
  | _ :: rest => paramValues k rest

/-- The values of the Field members named `k`, in insertion order. -/
def fieldValues (k : PyObj) : List ContentObj → List PyObj
  | [] => []
  | .field n v :: rest =>
      if n = k then v :: fieldValues k rest else fieldValues k rest
  | _ :: rest => fieldValues k rest

/-- Appending accumulated values to an optional existing list: `none` when
nothing ends up stored, the concatenation otherwise. -/
def combine {β : Type} (o : Option (List β)) (vs : List β) : Option (List β) :=
  if vs.isEmpty then o else some (o.getD [] ++ vs)

/-! ## Dictionary lemmas -/

theorem dcontains_eq_isSome {α β : Type} [DecidableEq α] (d : List (α × β)) (k : α) :
    dcontains d k = (dget d k).isSome := by
  induction d with
  | nil => rfl
  | cons p rest ih =>
      rcases p with ⟨k', v⟩
      by_cases h : k' = k <;> simp [dcontains, dget, h, ih]

theorem dget_eq_none_of_not_dcontains {α β : Type} [DecidableEq α]
    {d : List (α × β)} {k : α} (h : dcontains d k = false) : dget d k = none := by
  have hs := dcontains_eq_isSome d k
  rw [h] at hs
  cases hd : dget d k
  · rfl
  · rw [hd] at hs; simp at hs

theorem dcontains_eq_false_iff {α β : Type} [DecidableEq α] (d : List (α × β)) (k : α) :
    dcontains d k = false ↔ k ∉ d.map Prod.fst := by
  induction d with
  | nil => simp [dcontains]
  | cons p rest ih =>
      rcases p with ⟨k', v⟩
      by_cases h : k' = k
      · subst h
        rw [dcontains, if_pos rfl, List.map_cons]
        constructor
        · intro hc; cases hc
        · intro hm; exact absurd (List.mem_cons_self _ _) hm
      · rw [dcontains, if_neg h, ih, List.map_cons]
        constructor
        · intro hm hmem
          rcases List.mem_cons.mp hmem with h1 | h1
          · exact h h1.symm
          · exact hm h1
        · intro hm hmem
          exact hm (List.mem_cons_of_mem _ hmem)

theorem dget_dset {α β : Type} [DecidableEq α] (d : List (α × β)) (n k : α) (v : β) :
    dget (dset d n v) k = if n = k then some v else dget d k := by
  induction d with
  | nil => simp [dset, dget]
  | cons p rest ih =>
      rcases p with ⟨k', v'⟩
      by_cases h1 : k' = n
      · subst h1
        by_cases h2 : k' = k <;> simp [dset, dget, h2]
      · by_cases h2 : k' = k
        · subst h2
          have h3 : ¬n = k' := fun h => h1 h.symm
          simp [dset, dget, h1, h3]
        · simp [dset, dget, h1, h2, ih]

theorem dget_dmodify {α β : Type} [DecidableEq α] (d : List (α × β)) (n k : α)
    (f : β → β) :
    dget (dmodify d n f) k = if n = k then (dget d k).map f else dget d k := by
  induction d with
  | nil => simp [dmodify, dget]
  | cons p rest ih =>
      rcases p with ⟨k', v'⟩
      by_cases h1 : k' = n
      · subst h1
        by_cases h2 : k' = k <;> simp [dmodify, dget, h2]
      · by_cases h2 : k' = k
        · subst h2
          have h3 : ¬n = k' := fun h => h1 h.symm
          simp [dmodify, dget, h1, h3]
        · simp [dmodify, dget, h1, h2, ih]

theorem dget_create_or_append (d : List (PyObj × List PyObj)) (n k : PyObj)
    (v : PyObj) :
    dget (_create_or_append d n v) k =
      if n = k then some ((dget d k).getD [] ++ [v]) else dget d k := by
  induction d with
  | nil => by_cases h : n = k <;> simp [_create_or_append, dget, h]
  | cons p rest ih =>
      rcases p with ⟨k', vs⟩
      by_cases h1 : k' = n
      · subst h1
        by_cases h2 : k' = k <;> simp [_create_or_append, dget, h2]
      · by_cases h2 : k' = k
        · subst h2
          have h3 : ¬n = k' := fun h => h1 h.symm
          simp [_create_or_append, dget, h1, h3]
        · simp [_create_or_append, dget, h1, h2, ih]

theorem dget_dupdate_of_not_contains {α β : Type} [DecidableEq α]
    (d : List (α × β)) {other : List (α × β)} {k : α}
    (h : dcontains other k = false) : dget (dupdate d other) k = dget d k := by
  induction other generalizing d with
  | nil => rfl
  | cons p rest ih =>
      rcases p with ⟨k₀, v₀⟩
      by_cases hk₀ : k₀ = k
      · rw [dcontains, if_pos hk₀] at h; cases h
      · rw [dcontains, if_neg hk₀] at h
        show dget (dupdate (dset d k₀ v₀) rest) k = dget d k
        rw [ih (dset d k₀ v₀) h, dget_dset, if_neg hk₀]

theorem dget_dupdate_nodup {α β : Type} [DecidableEq α]
    (d : List (α × β)) {other : List (α × β)} (k : α)
    (h : (other.map Prod.fst).Nodup) :
    dget (dupdate d other) k = ofirst (dget other k) (dget d k) := by
  induction other generalizing d with
  | nil => rfl
  | cons p rest ih =>
      rcases p with ⟨k₀, v₀⟩
      rw [List.map_cons, List.nodup_cons] at h
      have hrest : dcontains rest k₀ = false := (dcontains_eq_false_iff rest k₀).2 h.1
      by_cases hk : k₀ = k
      · subst hk
        show dget (dupdate (dset d k₀ v₀) rest) k₀ = _
        rw [dget_dupdate_of_not_contains _ hrest, dget_dset, if_pos rfl]
        simp [dget, ofirst]
      · show dget (dupdate (dset d k₀ v₀) rest) k = _
        rw [ih (dset d k₀ v₀) h.2, dget_dset, if_neg hk]
        simp [dget, hk]

theorem dcontains_filter_ne {α β : Type} [DecidableEq α] (d : List (α × β)) (k : α) :
    dcontains (d.filter (fun p => decide (p.1 ≠ k))) k = false := by
  rw [dcontains_eq_false_iff]
  intro hk
  rw [List.mem_map] at hk
  obtain ⟨p, hp, hpk⟩ := hk
  rw [List.mem_filter] at hp
  have h2 := hp.2
  rw [hpk] at h2
  simp at h2

theorem mergeHeaders_none (parameters : Bundle) :
    App.mergeHeaders parameters none = parameters := rfl

theorem mergeHeaders_some_falsy (parameters : Bundle) (h : RVal)
    (htru : h.truthy = false) :
    App.mergeHeaders parameters (some h) = parameters := by
  simp only [App.mergeHeaders]
  rw [htru, Bool.false_and]
  rfl

theorem mergeHeaders_some_not_contains (parameters : Bundle) (h : RVal)
    (hc : dcontains parameters "headers" = false) :
    App.mergeHeaders parameters (some h) = parameters := by
  simp only [App.mergeHeaders]
  rw [hc, Bool.and_false]
  rfl

theorem mergeHeaders_some_of_contains (parameters : Bundle) (h : RVal)
    (htru : h.truthy = true) (hc : dcontains parameters "headers" = true) :
    App.mergeHeaders parameters (some h) =
      dmodify parameters "headers" (fun old => old.updateHeaders h) := by
  simp only [App.mergeHeaders]
  rw [htru, hc, Bool.and_self]
  rfl

/-! ## Claim theorems -/

/-- C1: adding `Parameter("p","1")`, `Field("f","2")`, `File("doc", <text
stream named "report.txt">)` and `JSONValue("meta", {"a":1})` to a Composite
in that order and building yields exactly `params = {"p": ["1"]}`,
`data = {"f": ["2"]}`, and `files = {"doc": ("report.txt", <stream>,
"text/plain"), "meta": (None, "\x7b\"a\": 1\x7d", "application/json")}`. -/
theorem c1_end_to_end :
    (do
      let p ← ParamContent.init (.str "p") (.str "1")
      let f ← FieldContent.init (.str "f") (.str "2")
      let doc ← FileContent.init (.str "doc") (.stream (some "report.txt") true) none
      let meta ← JSONContent.init (.str "meta") (.obj (.cons "a" (.num 1) .nil))
      let m ← MultiContent.init (.str "form")
      let m ← m.add [.content p, .content f, .content doc, .content meta]
      m.build) =
    .ok [("params", .ldict [(.str "p", [.str "1"])]),
         ("data", .ldict [(.str "f", [.str "2"])]),
         ("files", .fdict
           [(.str "doc",
             (some "report.txt", .fileArg (.stream (some "report.txt") true),
              "text/plain")),
            (.str "meta",
             ((none : Option String), .jsonStr "\x7b\"a\": 1\x7d",
              "application/json"))])] := by
  decide

/-- C4: any of the reserved keys `data`, `json`, `files`, `params` in the
overrides makes `crequest` fail with the `ValueError` naming them, whatever
the content is — in particular before the content is built (the result does
not depend on `content.build()`) and without producing a `RequestCall` (the
model's only way of reaching the network engine). -/
theorem c4_invalid_override_keys (method url : String) (content : ContentVal)
    (kwargs : Bundle)
    (h : (["data", "json", "files", "params"].any fun n => dcontains kwargs n) = true) :
    App.crequest method url content kwargs =
      .error (.valueError
        ("Do not use these parameters (data, json, files, params). " ++
         "They have already been included in Content object.")) := by
  unfold App.crequest
  rw [if_pos h]

/-- Witness for C4 at a concrete call whose overrides carry `data`. -/
theorem c4_witness :
    App.crequest "POST" "http://x" (.single (.field (.str "f") (.str "2")))
      [("data", .transport "d")] =
      .error (.valueError
        ("Do not use these parameters (data, json, files, params). " ++
         "They have already been included in Content object.")) :=
  c4_invalid_override_keys "POST" "http://x"
    (.single (.field (.str "f") (.str "2"))) [("data", .transport "d")] (by decide)

/-- C10: when the overrides carry a `headers` entry but the built bundle has
none, `crequest` succeeds and the forwarded parameters contain no `headers`
entry at all — the override headers are silently dropped. -/
theorem c10_headers_override_discarded (method url : String) (content : ContentVal)
    (kwargs params : Bundle) (hv : RVal)
    (hbuild : content.build = .ok params)
    (hnoinv : (["data", "json", "files", "params"].any fun n => dcontains kwargs n) = false)
    (hkw : dget kwargs "headers" = some hv)
    (hnoh : dcontains params "headers" = false) :
    ∃ call, App.crequest method url content kwargs = .ok call ∧
      dcontains call.parameters "headers" = false := by
  unfold App.crequest
  rw [if_neg (by simp [hnoinv]), hbuild]
  simp only [bind, Except.bind, dpop]
  rw [hkw, mergeHeaders_some_not_contains params hv hnoh]
  refine ⟨_, rfl, ?_⟩
  dsimp only
  rw [dcontains_eq_isSome,
    dget_dupdate_of_not_contains params (dcontains_filter_ne kwargs "headers"),
    dget_eq_none_of_not_dcontains hnoh]
  rfl

/-- Witness for C10: a Composite content (whose bundle has no `headers`) and
an overrides dict carrying `headers`. -/
theorem c10_witness :
    ∃ call, App.crequest "GET" "http://x"
        (.multi ⟨.str "form", [], APPLICATION_X_WWW_FORM_URLENCODED⟩)
        [("headers", .sdict [("X-Extra", "1")])] = .ok call ∧
      dcontains call.parameters "headers" = false :=
  c10_headers_override_discarded "GET" "http://x"
    (.multi ⟨.str "form", [], APPLICATION_X_WWW_FORM_URLENCODED⟩)
    [("headers", .sdict [("X-Extra", "1")])]
    [("params", .ldict []), ("data", .ldict []), ("files", .fdict [])]
    (.sdict [("X-Extra", "1")])
    (by decide) (by decide) (by decide) (by decide)

/-- C3: under valid overrides, `crequest` succeeds, and (a) when both the
built bundle and the overrides carry a `headers` dict the forwarded headers
are `dupdate ch oh` — whose lookups take the override value when present and
the content value otherwise — and (b) when the overrides carry no `headers`
the built headers entry is forwarded unchanged. -/
theorem c3_headers_merge (method url : String) (content : ContentVal)
    (kwargs params : Bundle)
    (hbuild : content.build = .ok params)
    (hnoinv : (["data", "json", "files", "params"].any fun n => dcontains kwargs n) = false) :
    ∃ call, App.crequest method url content kwargs = .ok call ∧
      (∀ ch oh, dget params "headers" = some (.sdict ch) →
        dget kwargs "headers" = some (.sdict oh) →
        (dget call.parameters "headers" = some (.sdict (dupdate ch oh)) ∧
         ((oh.map Prod.fst).Nodup → ∀ k,
            dget (dupdate ch oh) k = ofirst (dget oh k) (dget ch k)))) ∧
      (dget kwargs "headers" = none →
        dget call.parameters "headers" = dget params "headers") := by
  unfold App.crequest
  rw [if_neg (by simp [hnoinv]), hbuild]
  simp only [bind, Except.bind, dpop]
  cases hk : dget kwargs "headers" with
  | none =>
      rw [mergeHeaders_none]
      refine ⟨_, rfl, ?_, ?_⟩
      · intro ch oh hch hoh
        cases hoh
      · intro _
        dsimp only
        exact dget_dupdate_of_not_contains params (dcontains_filter_ne kwargs "headers")
  | some hv =>
      refine ⟨_, rfl, ?_, ?_⟩
      · intro ch oh hch hoh
        injection hoh with hoh
        subst hoh
        refine ⟨?_, fun hnod k => dget_dupdate_nodup ch k hnod⟩
        dsimp only
        cases oh with
        | nil =>
            rw [mergeHeaders_some_falsy params (.sdict []) rfl,
              dget_dupdate_of_not_contains _ (dcontains_filter_ne kwargs "headers"), hch]
            rfl
        | cons q oh' =>
            have hcont : dcontains params "headers" = true := by
              rw [dcontains_eq_isSome, hch]; rfl
            rw [mergeHeaders_some_of_contains params (.sdict (q :: oh')) rfl hcont,
              dget_dupdate_of_not_contains _ (dcontains_filter_ne kwargs "headers"),
              dget_dmodify, if_pos rfl, hch]
            rfl
      · intro hnone
        cases hnone

/-- Witness for C3 at a concrete call: a File content (whose bundle carries
headers) and overrides whose headers collide on `Content-Type`; the override
value wins and `X-Extra` is added. -/
theorem c3_witness :
    ∃ call, App.crequest "POST" "http://x"
        (.single (.file (.str "doc") (.bytes [1]) "a.txt" "text/plain"))
        [("headers", .sdict [("Content-Type", "application/json"), ("X-Extra", "1")]),
         ("timeout", .transport "5")] = .ok call ∧
      dget call.parameters "headers" =
        some (.sdict [("Content-Type", "application/json"),
                      ("Content-Disposition", "attachment; filename=a.txt"),
                      ("X-Extra", "1")]) := by
  obtain ⟨call, hcall, hA, _⟩ := c3_headers_merge "POST" "http://x"
    (.single (.file (.str "doc") (.bytes [1]) "a.txt" "text/plain"))
    [("headers", .sdict [("Content-Type", "application/json"), ("X-Extra", "1")]),
     ("timeout", .transport "5")]
    [("data", .fileArg (.bytes [1])),
     ("headers", .sdict [("Content-Type", "text/plain"),
                         ("Content-Disposition", "attachment; filename=a.txt")])]
    (by decide) (by decide)
  obtain ⟨hm, _⟩ := hA
    [("Content-Type", "text/plain"), ("Content-Disposition", "attachment; filename=a.txt")]
    [("Content-Type", "application/json"), ("X-Extra", "1")]
    (by decide) (by decide)
  refine ⟨call, hcall, ?_⟩
  rw [hm]
  decide

/-! ## The enctype invariant of MultiContent -/

theorem appendContent_preserves (m : MultiContent) (c : ContentObj)
    (h : enctypeConsistent m) : enctypeConsistent (m.appendContent c) := by
  unfold enctypeConsistent at h ⊢
  unfold MultiContent.appendContent
  dsimp only
  rw [List.all_append, h]
  cases hc : c.isParamOrField <;> simp [hc]

theorem addRun_preserves (m : MultiContent) (cs : List AnyObj)
    (h : enctypeConsistent m) : enctypeConsistent (m.addRun cs).1 := by
  induction cs generalizing m with
  | nil => exact h
  | cons c rest ih =>
      cases c with
      | other tag => exact h
      | content co => exact ih _ (appendContent_preserves m co h)

theorem runAdds_preserves (m : MultiContent) (calls : List (List AnyObj))
    (h : enctypeConsistent m) : enctypeConsistent (runAdds m calls) := by
  induction calls generalizing m with
  | nil => exact h
  | cons call rest ih => exact ih _ (addRun_preserves m call h)

/-- C5: after any sequence of `add` calls on a freshly constructed
Composite, the reported content type is `application/x-www-form-urlencoded`
exactly when every member is a Param/Field (in particular when there is no
member), and `multipart/form-data` exactly when some File or JSONValue
member is present. -/
theorem c5_enctype_invariant (nm : PyObj) (m₀ : MultiContent)
    (calls : List (List AnyObj))
    (hinit : MultiContent.init nm = .ok m₀) :
    ((runAdds m₀ calls).enctype = APPLICATION_X_WWW_FORM_URLENCODED ↔
      ∀ c ∈ (runAdds m₀ calls).contentList, c.isParamOrField = true) ∧
    ((runAdds m₀ calls).enctype = MULTIPART_FORM_DATA ↔
      ∃ c ∈ (runAdds m₀ calls).contentList, c.isParamOrField = false) := by
  have h₀ : enctypeConsistent m₀ := by
    cases hsb : nm.isStrOrBytes with
    | true =>
        simp only [MultiContent.init, Content.checkName, hsb, if_true,
          bind, Except.bind, Except.ok.injEq] at hinit
        rw [← hinit]
        rfl
    | false =>
        simp only [MultiContent.init, Content.checkName, hsb] at hinit
        cases hinit
  have hfin := runAdds_preserves m₀ calls h₀
  have hne : APPLICATION_X_WWW_FORM_URLENCODED ≠ MULTIPART_FORM_DATA := by decide
  unfold enctypeConsistent at hfin
  cases hall : (runAdds m₀ calls).contentList.all ContentObj.isParamOrField with
  | true =>
      rw [hall, if_pos rfl] at hfin
      constructor
      · exact ⟨fun _ => List.all_eq_true.mp hall, fun _ => hfin⟩
      · constructor
        · intro hM
          rw [hfin] at hM
          exact absurd hM hne
        · intro ⟨c, hc, hcf⟩
          rw [List.all_eq_true.mp hall c hc] at hcf
          cases hcf
  | false =>
      rw [hall, if_neg (by simp)] at hfin
      have hex : ∃ c ∈ (runAdds m₀ calls).contentList, c.isParamOrField = false := by
        obtain ⟨c, hc, hcf⟩ := List.all_eq_false.mp hall
        exact ⟨c, hc, by simpa using hcf⟩
      constructor
      · constructor
        · intro hU
          rw [hfin] at hU
          exact absurd hU.symm hne
        · intro hfa
          obtain ⟨c, hc, hcf⟩ := hex
          rw [hfa c hc] at hcf
          cases hcf
      · exact ⟨fun _ => hex, fun _ => hfin⟩

/-- Witness for C5: adding one Field then one File to a fresh Composite;
after the File the type is multipart and a non-Param/Field member exists. -/
theorem c5_witness :
    ((runAdds ⟨.str "form", [], APPLICATION_X_WWW_FORM_URLENCODED⟩
        [[.content (.field (.str "a") (.str "1"))],
         [.content (.file (.str "doc") (.bytes [0]) "a.bin" APPLICATION_OCTET_STREAM)]]).enctype =
      APPLICATION_X_WWW_FORM_URLENCODED ↔
      ∀ c ∈ (runAdds ⟨.str "form", [], APPLICATION_X_WWW_FORM_URLENCODED⟩
        [[.content (.field (.str "a") (.str "1"))],
         [.content (.file (.str "doc") (.bytes [0]) "a.bin" APPLICATION_OCTET_STREAM)]]).contentList,
        c.isParamOrField = true) ∧
    ((runAdds ⟨.str "form", [], APPLICATION_X_WWW_FORM_URLENCODED⟩
        [[.content (.field (.str "a") (.str "1"))],
         [.content (.file (.str "doc") (.bytes [0]) "a.bin" APPLICATION_OCTET_STREAM)]]).enctype =
      MULTIPART_FORM_DATA ↔
      ∃ c ∈ (runAdds ⟨.str "form", [], APPLICATION_X_WWW_FORM_URLENCODED⟩
        [[.content (.field (.str "a") (.str "1"))],
         [.content (.file (.str "doc") (.bytes [0]) "a.bin" APPLICATION_OCTET_STREAM)]]).contentList,
        c.isParamOrField = false) :=
  c5_enctype_invariant (.str "form") ⟨.str "form", [], APPLICATION_X_WWW_FORM_URLENCODED⟩
    [[.content (.field (.str "a") (.str "1"))],
     [.content (.file (.str "doc") (.bytes [0]) "a.bin" APPLICATION_OCTET_STREAM)]]
    (by decide)

/-! ## JSON construction errors (C6) -/

/-- C6 counterexample: a value that is not JSON-serializable at all (a
Python `set`) makes `JSONContent.__init__` raise, but with a `TypeError`
propagated out of `json.dumps`, not the `ValueError`-kind
(`MissingRequiredData`) error the claim states. -/
theorem c6_counterexample :
    JSONContent.init (.str "x") (.unserializable "set") =
      .error (.typeError "Object of type set is not JSON serializable") ∧
    isValueError (JSONContent.init (.str "x") (.unserializable "set")) = false := by
  decide

/-- C6 amended: every value whose serialization fails makes construction
fail, but the error kind depends on how `json.dumps` failed: a `ValueError`
(non-finite float under `allow_nan=False`) is replaced by the constructor's
own `ValueError`, while any other error — the `TypeError` for values that
are not JSON-serializable at all — propagates unchanged. -/
theorem c6_json_construction_failure (nm : PyObj) (j : JVal)
    (hname : nm.isStrOrBytes = true) :
    (∀ msg, jsondumps false j = .error (.valueError msg) →
      JSONContent.init nm j =
        .error (.valueError "json is expected a serializable json object")) ∧
    (∀ msg, jsondumps false j = .error (.typeError msg) →
      JSONContent.init nm j = .error (.typeError msg)) := by
  unfold JSONContent.init
  simp only [Content.checkName, hname, if_true, bind, Except.bind]
  constructor
  · intro msg h
    rw [h]
  · intro msg h
    rw [h]

/-- Witness for C6 at `NaN`, whose serialization fails with `ValueError`. -/
theorem c6_witness :
    JSONContent.init (.str "x") .nan =
      .error (.valueError "json is expected a serializable json object") :=
  (c6_json_construction_failure (.str "x") .nan (by decide)).1
    "Out of range float values are not JSON compliant" (by decide)

/-! ## File filename resolution (C7) -/

/-- C7 counterexample: an explicit empty-string filename resolves no
non-empty name, yet construction succeeds (the code only rejects `None`),
storing the empty filename and the octet-stream default type. -/
theorem c7_counterexample :
    FileContent.init (.str "n") (.bytes [1]) (some "") =
      .ok (.file (.str "n") (.bytes [1]) "" APPLICATION_OCTET_STREAM) := by
  decide

/-- C7 amended: construction fails with the `ValueError` exactly when the
resolution (explicit argument, else the payload's `name` attribute) yields
nothing at all — an empty string is accepted; on success the stored filename
is the final path component of the resolved name and the content type is the
guess from the resolved name, with the text/binary default fallback. -/
theorem c7_filename_resolution (nm : PyObj) (file : FileArg) (filename : Option String)
    (hname : nm.isStrOrBytes = true) (hfile : file.isFileLike = true) :
    (resolvedFilename file filename = none →
      FileContent.init nm file filename =
        .error (.valueError
          "Please provide filename explicitly if file does not have name attribute")) ∧
    (∀ fn, resolvedFilename file filename = some fn →
      FileContent.init nm file filename =
        .ok (.file nm file (pathTail fn)
          ((guess_type fn).getD
            (if file.isTextLike then TEXT_PLAIN else APPLICATION_OCTET_STREAM)))) := by
  unfold FileContent.init
  simp only [Content.checkName, hname, if_true, bind, Except.bind, hfile,
    Bool.not_true, Bool.false_eq_true, if_false]
  constructor
  · intro h
    rw [h]
  · intro fn h
    rw [h]
    cases hg : guess_type fn <;> simp [hg]

/-- Witness for C7: a stream payload named with a directory prefix resolves
to the stripped final component; a nameless bytes payload with no explicit
filename fails. -/
theorem c7_witness :
    (FileContent.init (.str "doc") (.stream (some "tmp/report.txt") true) none =
      .ok (.file (.str "doc") (.stream (some "tmp/report.txt") true)
        "report.txt" TEXT_PLAIN)) ∧
    (FileContent.init (.str "doc") (.bytes [1]) none =
      .error (.valueError
        "Please provide filename explicitly if file does not have name attribute")) := by
  constructor
  · have h := (c7_filename_resolution (.str "doc") (.stream (some "tmp/report.txt") true)
      none (by decide) (by decide)).2 "tmp/report.txt" (by decide)
    rw [h]
    decide
  · exact (c7_filename_resolution (.str "doc") (.bytes [1]) none
      (by decide) (by decide)).1 (by decide)

/-! ## Partial mutation of a failed add (C8) -/

/-- C8 counterexample: a fresh Composite, then `add(file, 42)`: the call
raises `TypeError`, but the file member has been appended and the reported
content type has flipped to multipart — the state is not the pre-call
state. -/
theorem c8_counterexample :
    MultiContent.init (.str "form") =
      .ok ⟨.str "form", [], APPLICATION_X_WWW_FORM_URLENCODED⟩ ∧
    (MultiContent.addRun ⟨.str "form", [], APPLICATION_X_WWW_FORM_URLENCODED⟩
      [.content (.file (.str "doc") (.bytes [0]) "a.txt" TEXT_PLAIN),
       .other "int"]).2 = some (.typeError "Unsupported Content (int)") ∧
    (MultiContent.addRun ⟨.str "form", [], APPLICATION_X_WWW_FORM_URLENCODED⟩
      [.content (.file (.str "doc") (.bytes [0]) "a.txt" TEXT_PLAIN),
       .other "int"]).1.contentList =
      [.file (.str "doc") (.bytes [0]) "a.txt" TEXT_PLAIN] ∧
    (MultiContent.addRun ⟨.str "form", [], APPLICATION_X_WWW_FORM_URLENCODED⟩
      [.content (.file (.str "doc") (.bytes [0]) "a.txt" TEXT_PLAIN),
       .other "int"]).1.enctype = MULTIPART_FORM_DATA := by
  decide

/-- C8 amended: `add` raises `TypeError` at the first unsupported member;
the supported members before it have been appended (with the enctype
update applied) and remain in the composite, while the unsupported member
and everything after it are not added. -/
theorem c8_add_partial (m : MultiContent) (goods : List ContentObj) (tag : String)
    (rest : List AnyObj) :
    m.addRun (goods.map AnyObj.content ++ .other tag :: rest) =
      (goods.foldl MultiContent.appendContent m,
       some (.typeError ("Unsupported Content (" ++ tag ++ ")"))) := by
  induction goods generalizing m with
  | nil => rfl
  | cons c cs ih => exact ih (m.appendContent c)

/-! ## Sequential adds compose (C9) -/

theorem addRun_append (cs₁ : List AnyObj) :
    ∀ (m m₁ : MultiContent) (cs₂ : List AnyObj),
      m.addRun cs₁ = (m₁, none) → m.addRun (cs₁ ++ cs₂) = m₁.addRun cs₂ := by
  induction cs₁ with
  | nil =>
      intro m m₁ cs₂ h₁
      simp only [MultiContent.addRun] at h₁
      injection h₁ with hm _
      subst hm
      rfl
  | cons c cs ih =>
      intro m m₁ cs₂ h₁
      cases c with
      | other tag =>
          simp only [MultiContent.addRun, Prod.mk.injEq] at h₁
          exact absurd h₁.2 (by simp)
      | content co =>
          exact ih (m.appendContent co) m₁ cs₂ h₁

/-- C9: `build` is a pure function of the composite state in this embedding
(it takes the state and returns a bundle without modifying it), and
interleaving builds between adds changes nothing: adding `cs₁`, building,
then adding `cs₂` and building again gives the same final state and bundle
as adding `cs₁ ++ cs₂` at once and building once. -/
theorem c9_build_pure_roundtrip (m m₁ m₂ : MultiContent) (cs₁ cs₂ : List AnyObj)
    (h₁ : m.addRun cs₁ = (m₁, none)) (h₂ : m₁.addRun cs₂ = (m₂, none)) :
    m.addRun (cs₁ ++ cs₂) = (m₂, none) ∧
    (m.addRun (cs₁ ++ cs₂)).1.build = m₂.build := by
  have h := addRun_append cs₁ m m₁ cs₂ h₁
  rw [h, h₂]
  exact ⟨rfl, rfl⟩

/-- Witness for C9: two same-named fields added one call at a time equal the
single two-member call, and the builds agree. -/
theorem c9_witness :
    MultiContent.addRun ⟨.str "f", [], APPLICATION_X_WWW_FORM_URLENCODED⟩
      ([.content (.field (.str "a") (.str "1"))] ++
       [.content (.field (.str "a") (.str "2"))]) =
      (⟨.str "f", [.field (.str "a") (.str "1"), .field (.str "a") (.str "2")],
        APPLICATION_X_WWW_FORM_URLENCODED⟩, none) ∧
    (MultiContent.addRun ⟨.str "f", [], APPLICATION_X_WWW_FORM_URLENCODED⟩
      ([.content (.field (.str "a") (.str "1"))] ++
       [.content (.field (.str "a") (.str "2"))])).1.build =
      MultiContent.build ⟨.str "f",
        [.field (.str "a") (.str "1"), .field (.str "a") (.str "2")],
        APPLICATION_X_WWW_FORM_URLENCODED⟩ :=
  c9_build_pure_roundtrip ⟨.str "f", [], APPLICATION_X_WWW_FORM_URLENCODED⟩
    ⟨.str "f", [.field (.str "a") (.str "1")], APPLICATION_X_WWW_FORM_URLENCODED⟩
    ⟨.str "f", [.field (.str "a") (.str "1"), .field (.str "a") (.str "2")],
      APPLICATION_X_WWW_FORM_URLENCODED⟩
    [.content (.field (.str "a") (.str "1"))]
    [.content (.field (.str "a") (.str "2"))]
    (by decide) (by decide)

/-! ## Composite build: accumulation vs duplicate detection (C2) -/

theorem combine_cons {β : Type} (o : Option (List β)) (v : β) (vs : List β) :
    combine (some (o.getD [] ++ [v])) vs = combine o (v :: vs) := by
  unfold combine
  cases hvs : vs.isEmpty
  · have : (v :: vs).isEmpty = false := rfl
    rw [this]
    simp
  · have hnil : vs = [] := by
      cases vs with
      | nil => rfl
      | cons a l => cases hvs
    subst hnil
    simp

theorem create_or_raise_ok {β : Type} {d : List (PyObj × β)} {k : PyObj} {v : β}
    {d' : List (PyObj × β)} (h : _create_or_raise d k v = .ok d') :
    dcontains d k = false ∧ d' = d ++ [(k, v)] := by
  unfold _create_or_raise at h
  by_cases hc : dcontains d k = true
  · rw [if_pos hc] at h; cases h
  · rw [if_neg hc] at h
    injection h with h
    exact ⟨by simpa using hc, h.symm⟩

theorem create_or_raise_error_shape {β : Type} {d : List (PyObj × β)} {k : PyObj}
    {v : β} {e : PyErr} (h : _create_or_raise d k v = .error e) :
    ∃ msg, e = .duplicateValue msg := by
  unfold _create_or_raise at h
  by_cases hc : dcontains d k = true
  · rw [if_pos hc] at h
    injection h with h
    exact ⟨_, h.symm⟩
  · rw [if_neg hc] at h; cases h

theorem dcontains_append_left {α β : Type} [DecidableEq α] {d : List (α × β)}
    (e : List (α × β)) {k : α} (h : dcontains d k = true) :
    dcontains (d ++ e) k = true := by
  induction d with
  | nil => cases h
  | cons p rest ih =>
      rcases p with ⟨k', v⟩
      by_cases hk : k' = k
      · simp [dcontains, hk]
      · rw [List.cons_append, dcontains, if_neg hk]
        rw [dcontains, if_neg hk] at h
        exact ih h

theorem dcontains_append_self {α β : Type} [DecidableEq α] (d : List (α × β))
    (k : α) (v : β) : dcontains (d ++ [(k, v)]) k = true := by
  induction d with
  | nil => simp [dcontains]
  | cons p rest ih =>
      rcases p with ⟨k', v'⟩
      by_cases hk : k' = k <;> simp [dcontains, hk, ih]

theorem bind_eq_ebind {ε α β : Type} (x : Except ε α) (f : α → Except ε β) :
    bind x f = Except.bind x f := rfl

theorem ebind_ok {ε α β : Type} (a : α) (f : α → Except ε β) :
    Except.bind (Except.ok a) f = f a := rfl

theorem ebind_error {ε α β : Type} (e : ε) (f : α → Except ε β) :
    Except.bind (Except.error e) f = Except.error e := rfl

theorem buildFold_cons_param (acc : BuildAcc) (n v : PyObj) (rest : List ContentObj) :
    buildFold acc (.param n v :: rest) =
      buildFold { acc with params := _create_or_append acc.params n v } rest := rfl

theorem buildFold_cons_field (acc : BuildAcc) (n v : PyObj) (rest : List ContentObj) :
    buildFold acc (.field n v :: rest) =
      buildFold { acc with data := _create_or_append acc.data n v } rest := rfl

theorem buildFold_cons_file (acc : BuildAcc) (n : PyObj) (f : FileArg) (fn enc : String)
    (rest : List ContentObj) :
    buildFold acc (.file n f fn enc :: rest) =
      Except.bind (_create_or_raise acc.files n (some fn, .fileArg f, enc))
        (fun files => buildFold { acc with files := files } rest) := by
  show Except.bind (buildStep acc (.file n f fn enc)) _ = _
  cases hcr : _create_or_raise acc.files n (some fn, .fileArg f, enc) with
  | error e =>
      simp only [buildStep, hcr]
      rfl
  | ok files' =>
      simp only [buildStep, hcr]
      rfl

theorem buildFold_cons_json (acc : BuildAcc) (n : PyObj) (j : JVal)
    (rest : List ContentObj) :
    buildFold acc (.json n j :: rest) =
      Except.bind (jsondumps true j) (fun s =>
        Except.bind (_create_or_raise acc.files n
            ((none : Option String), FilePart.jsonStr s, APPLICATION_JSON))
          (fun files => buildFold { acc with files := files } rest)) := by
  cases hs : jsondumps true j with
  | error e =>
      simp only [buildFold, buildStep, bind_eq_ebind, hs, ebind_error]
  | ok s =>
      cases hcr : _create_or_raise acc.files n
          ((none : Option String), FilePart.jsonStr s, APPLICATION_JSON) with
      | error e =>
          simp only [buildFold, buildStep, bind_eq_ebind, hs, hcr, ebind_ok, ebind_error]
      | ok files' =>
          simp only [buildFold, buildStep, bind_eq_ebind, hs, hcr, ebind_ok]

theorem buildFold_all_pf (l : List ContentObj) :
    ∀ acc : BuildAcc, (∀ c ∈ l, c.isParamOrField = true) →
      ∃ P D, buildFold acc l = .ok ⟨P, D, acc.files⟩ ∧
        ∀ k, dget P k = combine (dget acc.params k) (paramValues k l) ∧
             dget D k = combine (dget acc.data k) (fieldValues k l) := by
  induction l with
  | nil =>
      intro acc _
      exact ⟨acc.params, acc.data, rfl, fun k => ⟨rfl, rfl⟩⟩
  | cons c rest ih =>
      intro acc hall
      have hc : c.isParamOrField = true := hall c (List.mem_cons_self c rest)
      have hrest : ∀ c' ∈ rest, c'.isParamOrField = true :=
        fun c' hc' => hall c' (List.mem_cons_of_mem c hc')
      cases c with
      | param n v =>
          obtain ⟨P, D, hfold, hPD⟩ :=
            ih { acc with params := _create_or_append acc.params n v } hrest
          dsimp only at hfold hPD
          rw [buildFold_cons_param]
          refine ⟨P, D, hfold, fun k => ?_⟩
          obtain ⟨hP, hD⟩ := hPD k
          constructor
          · rw [hP, dget_create_or_append]
            by_cases hk : n = k
            · subst hk
              rw [if_pos rfl, combine_cons]
              congr 1
              simp [paramValues]
            · rw [if_neg hk]
              congr 1
              simp [paramValues, hk]
          · rw [hD]
            congr 1
      | field n v =>
          obtain ⟨P, D, hfold, hPD⟩ :=
            ih { acc with data := _create_or_append acc.data n v } hrest
          dsimp only at hfold hPD
          rw [buildFold_cons_field]
          refine ⟨P, D, hfold, fun k => ?_⟩
          obtain ⟨hP, hD⟩ := hPD k
          constructor
          · rw [hP]
            congr 1
          · rw [hD, dget_create_or_append]
            by_cases hk : n = k
            · subst hk
              rw [if_pos rfl, combine_cons]
              congr 1
              simp [fieldValues]
            · rw [if_neg hk]
              congr 1
              simp [fieldValues, hk]
      | file n f fn enc => cases hc
      | json n j => cases hc

theorem buildFold_ok_files (l : List ContentObj) :
    ∀ {acc acc' : BuildAcc}, buildFold acc l = .ok acc' →
      (∀ k, dcontains acc.files k = true → dcontains acc'.files k = true) ∧
      (∀ c ∈ l, c.isFilePart = true →
        dcontains acc'.files c.cname = true ∧ dcontains acc.files c.cname = false) := by
  induction l with
  | nil =>
      intro acc acc' h
      injection h with h
      subst h
      exact ⟨fun k hk => hk, fun c hc => absurd hc (List.not_mem_nil c)⟩
  | cons c rest ih =>
      intro acc acc' h
      cases c with
      | param n v =>
          rw [buildFold_cons_param] at h
          obtain ⟨mono, mem⟩ := ih h
          refine ⟨mono, ?_⟩
          intro c' hc' hfp
          rcases List.mem_cons.mp hc' with h1 | h1
          · subst h1; cases hfp
          · exact mem c' h1 hfp
      | field n v =>
          rw [buildFold_cons_field] at h
          obtain ⟨mono, mem⟩ := ih h
          refine ⟨mono, ?_⟩
          intro c' hc' hfp
          rcases List.mem_cons.mp hc' with h1 | h1
          · subst h1; cases hfp
          · exact mem c' h1 hfp
      | file n f fn enc =>
          rw [buildFold_cons_file] at h
          cases hcr : _create_or_raise acc.files n (some fn, .fileArg f, enc) with
          | error e => rw [hcr, ebind_error] at h; cases h
          | ok files' =>
              rw [hcr, ebind_ok] at h
              obtain ⟨hnotc, hfiles⟩ := create_or_raise_ok hcr
              subst hfiles
              obtain ⟨mono, mem⟩ := ih h
              constructor
              · intro k hk
                exact mono k (dcontains_append_left _ hk)
              · intro c' hc' hfp
                rcases List.mem_cons.mp hc' with h1 | h1
                · subst h1
                  exact ⟨mono _ (dcontains_append_self acc.files n _), hnotc⟩
                · obtain ⟨ha, hb⟩ := mem c' h1 hfp
                  refine ⟨ha, ?_⟩
                  cases hx : dcontains acc.files c'.cname
                  · rfl
                  · rw [dcontains_append_left _ hx] at hb; cases hb
      | json n j =>
          rw [buildFold_cons_json] at h
          cases hs : jsondumps true j with
          | error e => rw [hs, ebind_error] at h; cases h
          | ok s =>
              rw [hs, ebind_ok] at h
              cases hcr : _create_or_raise acc.files n
                  ((none : Option String), FilePart.jsonStr s, APPLICATION_JSON) with
              | error e => rw [hcr, ebind_error] at h; cases h
              | ok files' =>
                  rw [hcr, ebind_ok] at h
                  obtain ⟨hnotc, hfiles⟩ := create_or_raise_ok hcr
                  subst hfiles
                  obtain ⟨mono, mem⟩ := ih h
                  constructor
                  · intro k hk
                    exact mono k (dcontains_append_left _ hk)
                  · intro c' hc' hfp
                    rcases List.mem_cons.mp hc' with h1 | h1
                    · subst h1
                      exact ⟨mono _ (dcontains_append_self acc.files n _), hnotc⟩
                    · obtain ⟨ha, hb⟩ := mem c' h1 hfp
                      refine ⟨ha, ?_⟩
                      cases hx : dcontains acc.files c'.cname
                      · rfl
                      · rw [dcontains_append_left _ hx] at hb; cases hb

theorem buildFold_append (l₁ l₂ : List ContentObj) :
    ∀ acc, buildFold acc (l₁ ++ l₂) =
      Except.bind (buildFold acc l₁) (fun acc' => buildFold acc' l₂) := by
  induction l₁ with
  | nil => intro acc; rfl
  | cons c rest ih =>
      intro acc
      rw [List.cons_append]
      cases hstep : buildStep acc c with
      | error e =>
          show Except.bind (buildStep acc c) _ = Except.bind (Except.bind (buildStep acc c) _) _
          rw [hstep, ebind_error, ebind_error, ebind_error]
      | ok acc₁ =>
          show Except.bind (buildStep acc c) _ = Except.bind (Except.bind (buildStep acc c) _) _
          rw [hstep, ebind_ok, ebind_ok]
          exact ih acc₁

theorem buildFold_ok_or_dup (l : List ContentObj) :
    ∀ acc, (∀ c ∈ l, c.serializes = true) →
      (∃ acc', buildFold acc l = .ok acc') ∨
      (∃ msg, buildFold acc l = .error (.duplicateValue msg)) := by
  induction l with
  | nil => intro acc _; exact .inl ⟨acc, rfl⟩
  | cons c rest ih =>
      intro acc hser
      have hser' : ∀ c' ∈ rest, c'.serializes = true :=
        fun c' hc' => hser c' (List.mem_cons_of_mem c hc')
      cases c with
      | param n v =>
          rw [buildFold_cons_param]
          exact ih _ hser'
      | field n v =>
          rw [buildFold_cons_field]
          exact ih _ hser'
      | file n f fn enc =>
          rw [buildFold_cons_file]
          cases hcr : _create_or_raise acc.files n (some fn, .fileArg f, enc) with
          | error e =>
              rw [ebind_error]
              obtain ⟨msg, hmsg⟩ := create_or_raise_error_shape hcr
              subst hmsg
              exact .inr ⟨msg, rfl⟩
          | ok files' =>
              rw [ebind_ok]
              exact ih _ hser'
      | json n j =>
          have hcser := hser _ (List.mem_cons_self _ _)
          rw [buildFold_cons_json]
          cases hs : jsondumps true j with
          | error e =>
              simp only [ContentObj.serializes, hs] at hcser
              cases hcser
          | ok s =>
              rw [ebind_ok]
              cases hcr : _create_or_raise acc.files n
                  ((none : Option String), FilePart.jsonStr s, APPLICATION_JSON) with
              | error e =>
                  rw [ebind_error]
                  obtain ⟨msg, hmsg⟩ := create_or_raise_error_shape hcr
                  subst hmsg
                  exact .inr ⟨msg, rfl⟩
              | ok files' =>
                  rw [ebind_ok]
                  exact ih _ hser'

theorem buildFold_params_data (l : List ContentObj) :
    ∀ {acc acc' : BuildAcc}, buildFold acc l = .ok acc' → ∀ k,
      dget acc'.params k = combine (dget acc.params k) (paramValues k l) ∧
      dget acc'.data k = combine (dget acc.data k) (fieldValues k l) := by
  induction l with
  | nil =>
      intro acc acc' h k
      injection h with h
      subst h
      exact ⟨rfl, rfl⟩
  | cons c rest ih =>
      intro acc acc' h k
      cases c with
      | param n v =>
          rw [buildFold_cons_param] at h
          obtain ⟨hP, hD⟩ := ih h k
          dsimp only at hP hD
          constructor
          · rw [hP, dget_create_or_append]
            by_cases hk : n = k
            · subst hk
              rw [if_pos rfl, combine_cons]
              congr 1
              simp [paramValues]
            · rw [if_neg hk]
              congr 1
              simp [paramValues, hk]
          · rw [hD]
            congr 1
      | field n v =>
          rw [buildFold_cons_field] at h
          obtain ⟨hP, hD⟩ := ih h k
          dsimp only at hP hD
          constructor
          · rw [hP]
            congr 1
          · rw [hD, dget_create_or_append]
            by_cases hk : n = k
            · subst hk
              rw [if_pos rfl, combine_cons]
              congr 1
              simp [fieldValues]
            · rw [if_neg hk]
              congr 1
              simp [fieldValues, hk]
      | file n f fn enc =>
          rw [buildFold_cons_file] at h
          cases hcr : _create_or_raise acc.files n (some fn, .fileArg f, enc) with
          | error e => rw [hcr, ebind_error] at h; cases h
          | ok files' =>
              rw [hcr, ebind_ok] at h
              obtain ⟨hP, hD⟩ := ih h k
              dsimp only at hP hD
              exact ⟨hP, hD⟩
      | json n j =>
          rw [buildFold_cons_json] at h
          cases hs : jsondumps true j with
          | error e => rw [hs, ebind_error] at h; cases h
          | ok s =>
              rw [hs, ebind_ok] at h
              cases hcr : _create_or_raise acc.files n
                  ((none : Option String), FilePart.jsonStr s, APPLICATION_JSON) with
              | error e => rw [hcr, ebind_error] at h; cases h
              | ok files' =>
                  rw [hcr, ebind_ok] at h
                  obtain ⟨hP, hD⟩ := ih h k
                  dsimp only at hP hD
                  exact ⟨hP, hD⟩

theorem buildFold_dup_error (l₁ l₂ l₃ : List ContentObj) (c₁ c₂ : ContentObj)
    (hf₁ : c₁.isFilePart = true) (hf₂ : c₂.isFilePart = true)
    (hnm : c₁.cname = c₂.cname)
    (hser : ∀ c ∈ l₁ ++ c₁ :: l₂ ++ c₂ :: l₃, c.serializes = true) (acc : BuildAcc) :
    ∃ msg, buildFold acc (l₁ ++ c₁ :: l₂ ++ c₂ :: l₃) =
      .error (.duplicateValue msg) := by
  rcases buildFold_ok_or_dup _ acc hser with ⟨acc', hok⟩ | hdup
  · exfalso
    rw [show l₁ ++ c₁ :: l₂ ++ c₂ :: l₃ = (l₁ ++ [c₁]) ++ (l₂ ++ c₂ :: l₃) from by
      simp] at hok
    rw [buildFold_append] at hok
    cases hmid : buildFold acc (l₁ ++ [c₁]) with
    | error e =>
        rw [hmid, ebind_error] at hok
        cases hok
    | ok acc₁ =>
        rw [hmid, ebind_ok] at hok
        have h₁ := (buildFold_ok_files _ hmid).2 c₁ (by simp) hf₁
        have h₂ := (buildFold_ok_files _ hok).2 c₂ (by simp) hf₂
        have htrue : dcontains acc₁.files c₂.cname = true := by
          rw [← hnm]
          exact h₁.1
        have hfalse : dcontains acc₁.files c₂.cname = false := h₂.2
        rw [htrue] at hfalse
        cases hfalse
  · exact hdup

/-- C2: in a Composite build, Param (or Field) members sharing a name never
cause an error — a composite made only of them always builds, their values
accumulating in insertion order as a list under that name in `params` (or
`data`), and in any composite whose build succeeds the accumulation law
holds — while two members landing in `files` (two Files, two JSONValues, or
one of each) sharing a name make `build()` fail with the `DuplicateValue`
error (assuming every JSON member serializes, which the `JSONContent`
constructor guarantees). -/
theorem c2_accumulate_vs_duplicate (m₁ m₂ m₃ : MultiContent)
    (l₁ l₂ l₃ : List ContentObj) (c₁ c₂ : ContentObj) :
    ((∀ c ∈ m₁.contentList, c.isParamOrField = true) →
      ∃ P D, m₁.build =
          .ok [("params", .ldict P), ("data", .ldict D), ("files", .fdict [])] ∧
        ∀ k, dget P k = combine none (paramValues k m₁.contentList) ∧
             dget D k = combine none (fieldValues k m₁.contentList)) ∧
    (m₂.contentList = l₁ ++ c₁ :: l₂ ++ c₂ :: l₃ →
     c₁.isFilePart = true → c₂.isFilePart = true → c₁.cname = c₂.cname →
     (∀ c ∈ m₂.contentList, c.serializes = true) →
      ∃ msg, m₂.build = .error (.duplicateValue msg)) ∧
    (∀ P D F, m₃.build =
        .ok [("params", .ldict P), ("data", .ldict D), ("files", .fdict F)] →
      ∀ k, dget P k = combine none (paramValues k m₃.contentList) ∧
           dget D k = combine none (fieldValues k m₃.contentList)) := by
  refine ⟨?_, ?_, ?_⟩
  · intro hall
    obtain ⟨P, D, hfold, hPD⟩ := buildFold_all_pf m₁.contentList ⟨[], [], []⟩ hall
    refine ⟨P, D, ?_, hPD⟩
    show Except.bind (buildFold ⟨[], [], []⟩ m₁.contentList) _ = _
    rw [hfold, ebind_ok]
  · intro heq hf₁ hf₂ hnm hser
    rw [heq] at hser
    obtain ⟨msg, hmsg⟩ :=
      buildFold_dup_error l₁ l₂ l₃ c₁ c₂ hf₁ hf₂ hnm hser ⟨[], [], []⟩
    refine ⟨msg, ?_⟩
    show Except.bind (buildFold ⟨[], [], []⟩ m₂.contentList) _ = _
    rw [heq, hmsg, ebind_error]
  · intro P D F hok k
    cases hf : buildFold ⟨[], [], []⟩ m₃.contentList with
    | error e =>
        have hb : m₃.build = .error e := by
          show Except.bind (buildFold ⟨[], [], []⟩ m₃.contentList) _ = _
          rw [hf, ebind_error]
        rw [hb] at hok
        cases hok
    | ok acc' =>
        have hb : m₃.build = .ok [("params", .ldict acc'.params),
            ("data", .ldict acc'.data), ("files", .fdict acc'.files)] := by
          show Except.bind (buildFold ⟨[], [], []⟩ m₃.contentList) _ = _
          rw [hf, ebind_ok]
        rw [hb] at hok
        simp only [Except.ok.injEq, List.cons.injEq, Prod.mk.injEq, RVal.ldict.injEq,
          RVal.fdict.injEq, true_and, and_true] at hok
        obtain ⟨hP, hD, _⟩ := hok
        have h := buildFold_params_data m₃.contentList hf k
        rw [hP] at h
        rw [hD] at h
        exact h

/-- Witness for C2: two same-named Field members accumulate into an ordered
two-element list; a File and a JSONValue sharing the name `dup` make the
build fail with `DuplicateValue`. -/
theorem c2_witness :
    (∃ P D, MultiContent.build ⟨.str "m1",
        [.field (.str "field2") (.str "narutobaco"),
         .field (.str "field2") (.str "sasuketamin")],
        APPLICATION_X_WWW_FORM_URLENCODED⟩ =
        .ok [("params", .ldict P), ("data", .ldict D), ("files", .fdict [])] ∧
      ∀ k, dget P k = combine none (paramValues k
          [.field (.str "field2") (.str "narutobaco"),
           .field (.str "field2") (.str "sasuketamin")]) ∧
           dget D k = combine none (fieldValues k
          [.field (.str "field2") (.str "narutobaco"),
           .field (.str "field2") (.str "sasuketamin")])) ∧
    (∃ msg, MultiContent.build ⟨.str "m2",
        [.file (.str "dup") (.bytes [1]) "a.txt" TEXT_PLAIN,
         .json (.str "dup") (.obj .nil)],
        MULTIPART_FORM_DATA⟩ = .error (.duplicateValue msg)) ∧
    dget [(PyObj.str "p", [PyObj.str "1", PyObj.str "2"])] (.str "p") =
      combine none (paramValues (.str "p")
        [.param (.str "p") (.str "1"),
         .file (.str "doc") (.bytes [1]) "a.txt" TEXT_PLAIN,
         .param (.str "p") (.str "2")]) := by
  have h := c2_accumulate_vs_duplicate
    ⟨.str "m1",
      [.field (.str "field2") (.str "narutobaco"),
       .field (.str "field2") (.str "sasuketamin")],
      APPLICATION_X_WWW_FORM_URLENCODED⟩
    ⟨.str "m2",
      [.file (.str "dup") (.bytes [1]) "a.txt" TEXT_PLAIN,
       .json (.str "dup") (.obj .nil)],
      MULTIPART_FORM_DATA⟩
    ⟨.str "m3",
      [.param (.str "p") (.str "1"),
       .file (.str "doc") (.bytes [1]) "a.txt" TEXT_PLAIN,
       .param (.str "p") (.str "2")],
      MULTIPART_FORM_DATA⟩
    [] [] []
    (.file (.str "dup") (.bytes [1]) "a.txt" TEXT_PLAIN)
    (.json (.str "dup") (.obj .nil))
  refine ⟨h.1 (by decide), h.2.1 rfl (by decide) (by decide) (by decide) (by decide), ?_⟩
  exact (h.2.2 [(PyObj.str "p", [PyObj.str "1", PyObj.str "2"])] []
    [(PyObj.str "doc", (some "a.txt", .fileArg (.bytes [1]), TEXT_PLAIN))]
    (by decide) (.str "p")).1

end Hyperad
